import Mathlib

/-!
Verification of the attendance / result reconciliation logic of the school
administration application.

The definitions below are a shallow embedding of the Django views in
`staff_view（教师功能模块标注）.py` and of the `post_save` user-profile hook in
`main_app/models.py`, over an explicit database state.  ORM calls are modelled
as follows:

* `Model.objects.get(...)` and `get_object_or_404(Model, ...)` filter the rows
  and succeed only when exactly one row matches (`getUnique`): a missing row
  raises `DoesNotExist`/`Http404` and a duplicate raises
  `MultipleObjectsReturned`; in every view modelled here both exceptions are
  swallowed by the surrounding broad `except` and lead to the same error
  outcome, so they are conflated into `none`.
* `Model.objects.get_or_create(...)` performs the same unique lookup and, when
  no row matches, inserts a fresh row carrying the model's field defaults and
  the next autoincrement id.
* `row.field = v; row.save()` rewrites the stored row with the matching
  primary key.

Audit timestamps (`created_at` / `updated_at`) carry no business meaning and
are not part of the state.  Scores (`FloatField`) are modelled as integers:
the claims only compare stored values for equality.
-/

namespace SchoolApp

/-- A `CustomUser` account (`main_app/models.py`, `CustomUser`): only the
fields the modelled views read. -/
structure CustomUser where
  id : Nat
  firstName : String
  lastName : String
deriving DecidableEq

/-- A `Student` row (`main_app/models.py`, `Student`): a one-to-one user
account plus nullable course and session foreign keys. -/
structure Student where
  id : Nat
  admin : CustomUser
  courseId : Option Nat
  sessionId : Option Nat
deriving DecidableEq

/-- A `Subject` row: its id and the course it belongs to. -/
structure Subject where
  id : Nat
  courseId : Nat
deriving DecidableEq

/-- An `Attendance` row (the attendance event): keyed in the views by
(session, subject, date). -/
structure Attendance where
  id : Nat
  sessionId : Nat
  subjectId : Nat
  date : String
deriving DecidableEq

/-- An `AttendanceReport` row: one student's status against one event.
`status` defaults to `false` on creation. -/
structure AttendanceReport where
  id : Nat
  studentId : Nat
  attendanceId : Nat
  status : Bool
deriving DecidableEq

/-- A `StudentResult` row: test and exam scores for (student, subject). -/
structure StudentResult where
  id : Nat
  studentId : Nat
  subjectId : Nat
  test : Int
  exam : Int
deriving DecidableEq

/-- The database state visible to the modelled views.  Sessions are plain ids
(the views only test their existence).  The `next*` fields are the
autoincrement counters of the three tables the views insert into. -/
structure DB where
  sessions : List Nat
  subjects : List Subject
  students : List Student
  attendances : List Attendance
  reports : List AttendanceReport
  results : List StudentResult
  nextAttendanceId : Nat
  nextReportId : Nat
  nextResultId : Nat
deriving DecidableEq

/-- `QuerySet.get` semantics: succeed only on exactly one match. -/
def getUnique {α : Type} (l : List α) : Option α :=
  match l with
  | [a] => some a
  | _ => none

/-- Rows matching `Student.objects.filter(id=sid)`. -/
def studentsById (db : DB) (sid : Nat) : List Student :=
  db.students.filter (fun s => s.id == sid)

/-- `get_object_or_404(Student, id=sid)`. -/
def studentById (db : DB) (sid : Nat) : Option Student :=
  getUnique (studentsById db sid)

/-- Rows matching `Student.objects.filter(admin_id=uid)`. -/
def studentsByAdminId (db : DB) (uid : Nat) : List Student :=
  db.students.filter (fun s => s.admin.id == uid)

/-- `get_object_or_404(Student, admin_id=uid)`. -/
def studentByAdminId (db : DB) (uid : Nat) : Option Student :=
  getUnique (studentsByAdminId db uid)

/-- `get_object_or_404(Subject, id=i)`. -/
def subjectById (db : DB) (i : Nat) : Option Subject :=
  getUnique (db.subjects.filter (fun s => s.id == i))

/-- `get_object_or_404(Attendance, id=i)`. -/
def attendanceById (db : DB) (i : Nat) : Option Attendance :=
  getUnique (db.attendances.filter (fun a => a.id == i))

/-- Rows matching `Attendance.objects.filter(session=.., subject=.., date=..)`. -/
def attendancesFor (db : DB) (sessionId subjectId : Nat) (date : String) : List Attendance :=
  db.attendances.filter (fun a => a.sessionId == sessionId && a.subjectId == subjectId && a.date == date)

/-- The unique attendance event for a (session, subject, date) key, if any. -/
def attendanceFor (db : DB) (sessionId subjectId : Nat) (date : String) : Option Attendance :=
  getUnique (attendancesFor db sessionId subjectId date)

/-- Rows matching `AttendanceReport.objects.filter(student=.., attendance=..)`. -/
def reportsFor (db : DB) (studentId attendanceId : Nat) : List AttendanceReport :=
  db.reports.filter (fun r => r.studentId == studentId && r.attendanceId == attendanceId)

/-- The unique report for a (student, event) pair, if any. -/
def reportFor (db : DB) (studentId attendanceId : Nat) : Option AttendanceReport :=
  getUnique (reportsFor db studentId attendanceId)

/-- Rows matching `StudentResult.objects.filter(student=.., subject=..)`. -/
def resultsFor (db : DB) (studentId subjectId : Nat) : List StudentResult :=
  db.results.filter (fun r => r.studentId == studentId && r.subjectId == subjectId)

/-- `StudentResult.objects.get(student=.., subject=..)`. -/
def resultFor (db : DB) (studentId subjectId : Nat) : Option StudentResult :=
  getUnique (resultsFor db studentId subjectId)

/-- `attendance_report.status = v; attendance_report.save()`: rewrite the row
with the given primary key. -/
def setReportStatus (db : DB) (repId : Nat) (v : Bool) : DB :=
  { db with reports := db.reports.map (fun r => if r.id == repId then { r with status := v } else r) }

/-- `Attendance.objects.get_or_create(session=.., subject=.., date=..)`
(staff view, save_attendance, lines 134-135).  Returns the (possibly
extended) state, the event, and the `created` flag; `none` models the
`MultipleObjectsReturned` exception. -/
def getOrCreateAttendance (db : DB) (sessionId subjectId : Nat) (date : String) :
    Option (DB × Attendance × Bool) :=
  match attendancesFor db sessionId subjectId date with
  | [] =>
    let a : Attendance := ⟨db.nextAttendanceId, sessionId, subjectId, date⟩
    some ({ db with attendances := db.attendances ++ [a],
                    nextAttendanceId := db.nextAttendanceId + 1 }, a, true)
  | [a] => some (db, a, false)
  | _ => none

/-- `AttendanceReport.objects.get_or_create(student=.., attendance=..)`
(staff view, save_attendance, lines 142-143).  A created row carries the
model default `status = false`. -/
def getOrCreateReport (db : DB) (studentId attendanceId : Nat) :
    Option (DB × AttendanceReport × Bool) :=
  match reportsFor db studentId attendanceId with
  | [] =>
    let rep : AttendanceReport := ⟨db.nextReportId, studentId, attendanceId, false⟩
    some ({ db with reports := db.reports ++ [rep],
                    nextReportId := db.nextReportId + 1 }, rep, true)
  | [r] => some (db, r, false)
  | _ => none

/-- Outcome of the save/update attendance views: `HttpResponse("OK")` versus
the `return None` taken from the broad `except` branch. -/
inductive SaveResp where
  | ok : SaveResp
  | error : SaveResp
deriving DecidableEq

/-- The per-student loop of `save_attendance` (lines 138-148): resolve the
student by its `Student.id`, get-or-create the report, and set the status
only when the report was newly created.  A lookup failure aborts the loop
(the exception propagates to the view's `except`), keeping the writes already
made. -/
def processStudents : DB → Nat → List (Nat × Bool) → DB × Bool
  | db, _, [] => (db, true)
  | db, att, (sid, stVal) :: rest =>
    match studentById db sid with
    | none => (db, false)
    | some student =>
      match getOrCreateReport db student.id att with
      | none => (db, false)
      | some (db1, rep, created) =>
        let db2 := if created then setReportStatus db1 rep.id stVal else db1
        processStudents db2 att rest

/-- `save_attendance` (staff view, lines 117-153). -/
def save_attendance (db : DB) (sessionId subjectId : Nat) (date : String)
    (students : List (Nat × Bool)) : DB × SaveResp :=
  if db.sessions.contains sessionId then
    match subjectById db subjectId with
    | none => (db, .error)
    | some subject =>
      match getOrCreateAttendance db sessionId subject.id date with
      | none => (db, .error)
      | some (db1, attendance, _) =>
        let r := processStudents db1 attendance.id students
        (r.1, if r.2 then .ok else .error)
  else (db, .error)

/-- The per-student loop of `update_attendance` (lines 211-217): resolve the
student by its user-account id (`admin_id`), require the existing report, and
overwrite its status unconditionally. -/
def processUpdates : DB → Nat → List (Nat × Bool) → DB × Bool
  | db, _, [] => (db, true)
  | db, att, (uid, stVal) :: rest =>
    match studentByAdminId db uid with
    | none => (db, false)
    | some student =>
      match reportFor db student.id att with
      | none => (db, false)
      | some rep =>
        processUpdates (setReportStatus db rep.id stVal) att rest

/-- `update_attendance` (staff view, lines 197-222).  The `date` POST field
actually carries the `Attendance` row id. -/
def update_attendance (db : DB) (date : Nat) (students : List (Nat × Bool)) : DB × SaveResp :=
  match attendanceById db date with
  | none => (db, .error)
  | some attendance =>
    let r := processUpdates db attendance.id students
    (r.1, if r.2 then .ok else .error)

/-- Messages surfaced by `staff_add_result`. -/
inductive ResultMsg where
  | scoresUpdated : ResultMsg
  | scoresSaved : ResultMsg
  | errorOccured : ResultMsg
deriving DecidableEq

/-- `data.exam = exam; data.test = test; data.save()`: rewrite the result row
with the given primary key. -/
def updateResultFields (db : DB) (resId : Nat) (test exam : Int) : DB :=
  { db with results := (db.results.map
      (fun r => if r.id == resId then { r with test := test, exam := exam } else r)) }

/-- The POST branch of `staff_add_result` (staff view, lines 390-416): look
the result up by (student, subject); the inner bare `except` turns any lookup
failure into the insert branch. -/
def staff_add_result (db : DB) (studentId subjectId : Nat) (test exam : Int) :
    DB × ResultMsg :=
  match studentById db studentId with
  | none => (db, .errorOccured)
  | some student =>
    match subjectById db subjectId with
    | none => (db, .errorOccured)
    | some subject =>
      match resultFor db student.id subject.id with
      | some data => (updateResultFields db data.id test exam, .scoresUpdated)
      | none =>
        let result : StudentResult := ⟨db.nextResultId, student.id, subject.id, test, exam⟩
        ({ db with results := db.results ++ [result],
                   nextResultId := db.nextResultId + 1 }, .scoresSaved)

/-- Outcome of `fetch_student_result`: the JSON `{exam, test}` payload or the
`HttpResponse('False')` taken on any failure. -/
inductive FetchResp where
  | found (exam test : Int) : FetchResp
  | notFound : FetchResp
deriving DecidableEq

/-- `fetch_student_result` (staff view, lines 421-440).  The state is passed
through unchanged: the view performs no ORM write. -/
def fetch_student_result (db : DB) (subjectId studentId : Nat) : DB × FetchResp :=
  match studentById db studentId with
  | none => (db, .notFound)
  | some student =>
    match subjectById db subjectId with
    | none => (db, .notFound)
    | some subject =>
      match resultFor db student.id subject.id with
      | some result => (db, .found result.exam result.test)
      | none => (db, .notFound)

/-- One entry of the `get_students` JSON payload. -/
structure StudentEntry where
  id : Nat
  name : String
deriving DecidableEq

/-- One entry of the `get_student_attendance` JSON payload: note the id is
the student's user-account id (`student.admin.id`). -/
structure AttendanceEntry where
  id : Nat
  name : String
  status : Bool
deriving DecidableEq

/-- Value returned by the two AJAX read views: either a `JsonResponse` with a
data list, or — from `except Exception as e: return e` — the raw caught
exception object itself, which is not an HTTP response. -/
inductive AjaxResp (α : Type) where
  | json (data : List α) : AjaxResp α
  | exceptionObject : AjaxResp α
deriving DecidableEq

/-- Whether the returned value is an HTTP response. -/
def isHttpResponse {α : Type} : AjaxResp α → Bool
  | .json _ => true
  | .exceptionObject => false

/-- `get_students` (staff view, lines 85-113): resolve subject and session,
filter students on (course, session), and return their `Student.id`s and
names; any lookup failure returns the caught exception object. -/
def get_students (db : DB) (subjectId sessionId : Nat) : AjaxResp StudentEntry :=
  match subjectById db subjectId with
  | none => .exceptionObject
  | some subject =>
    if db.sessions.contains sessionId then
      .json ((db.students.filter
          (fun s => s.courseId == some subject.courseId && s.sessionId == some sessionId)).map
        (fun s => ⟨s.id, s.admin.lastName ++ " " ++ s.admin.firstName⟩))
    else .exceptionObject

/-- The loop of `get_student_attendance` (lines 186-190): each report's
student foreign key is resolved; a dangling reference raises inside the loop. -/
def buildAttendanceData (db : DB) : List AttendanceReport → Option (List AttendanceEntry)
  | [] => some []
  | r :: rest =>
    match studentById db r.studentId with
    | none => none
    | some s =>
      match buildAttendanceData db rest with
      | none => none
      | some es => some (⟨s.admin.id, s.admin.lastName ++ " " ++ s.admin.firstName, r.status⟩ :: es)

/-- `get_student_attendance` (staff view, lines 174-194). -/
def get_student_attendance (db : DB) (attendanceDateId : Nat) : AjaxResp AttendanceEntry :=
  match attendanceById db attendanceDateId with
  | none => .exceptionObject
  | some att =>
    match buildAttendanceData db (db.reports.filter (fun r => r.attendanceId == att.id)) with
    | some entries => .json entries
    | none => .exceptionObject

/-- The arguments of one `submit-attendance` request. -/
structure SaveCall where
  sessionId : Nat
  subjectId : Nat
  date : String
  pairs : List (Nat × Bool)

/-- A sequence of `submit-attendance` requests, applied in order. -/
def submitSeq : DB → List SaveCall → DB
  | db, [] => db
  | db, c :: cs => submitSeq (save_attendance db c.sessionId c.subjectId c.date c.pairs).1 cs

/-- No two events in the list share a (session, subject, date) key. -/
def noDupKeys : List Attendance → Bool
  | [] => true
  | a :: rest =>
    rest.all (fun b => !(b.sessionId == a.sessionId && b.subjectId == a.subjectId && b.date == a.date))
      && noDupKeys rest

/-- All elements of the list are distinct. -/
def uniqueIds : List Nat → Bool
  | [] => true
  | x :: xs => !(xs.contains x) && uniqueIds xs

/-- Well-formedness of a database state: primary keys are distinct and below
the autoincrement counters, student account ids are distinct, and report rows
reference already-allocated event ids.  Every state reachable from an empty
database through the modelled operations satisfies this. -/
def WF (db : DB) : Bool :=
  uniqueIds (db.students.map (fun s => s.id)) &&
  uniqueIds (db.students.map (fun s => s.admin.id)) &&
  uniqueIds (db.attendances.map (fun a => a.id)) &&
  (db.attendances.map (fun a => a.id)).all (fun i => i < db.nextAttendanceId) &&
  uniqueIds (db.reports.map (fun r => r.id)) &&
  (db.reports.map (fun r => r.id)).all (fun i => i < db.nextReportId) &&
  (db.reports.map (fun r => r.attendanceId)).all (fun i => i < db.nextAttendanceId) &&
  uniqueIds (db.results.map (fun r => r.id)) &&
  (db.results.map (fun r => r.id)).all (fun i => i < db.nextResultId)

/-- Profile rows owned by each role (`main_app/models.py`: the `Admin`,
`Staff` and `Student` tables, restricted to the owning user ids). -/
structure ProfileState where
  adminRows : List Nat
  staffRows : List Nat
  studentRows : List Nat
deriving DecidableEq

/-- The `post_save` receiver `create_user_profile` (models.py lines 273-282):
on creation, each of the three independent `if`s inserts the matching
profile row. -/
def create_user_profile (st : ProfileState) (userId userType : Nat) (created : Bool) :
    ProfileState :=
  if created then
    let st1 := if userType = 1 then { st with adminRows := st.adminRows ++ [userId] } else st
    let st2 := if userType = 2 then { st1 with staffRows := st1.staffRows ++ [userId] } else st1
    if userType = 3 then { st2 with studentRows := st2.studentRows ++ [userId] } else st2
  else st

/-- `CustomUserManager._create_user` (models.py lines 19-34): saving a fresh
row fires `post_save` with `created=True`, which runs the profile hook. -/
def create_user (st : ProfileState) (userId userType : Nat) : ProfileState :=
  create_user_profile st userId userType true

/-- How many profile rows a given user id owns, across the three role tables. -/
def ownedProfiles (st : ProfileState) (userId : Nat) : Nat :=
  (st.adminRows.filter (fun i => i == userId)).length +
  (st.staffRows.filter (fun i => i == userId)).length +
  (st.studentRows.filter (fun i => i == userId)).length

/-! ### Basic lemmas about the lookup helpers -/

theorem getUnique_eq_some {α : Type} {l : List α} {a : α} :
    getUnique l = some a ↔ l = [a] := by
  cases l with
  | nil => simp [getUnique]
  | cons x t =>
    cases t with
    | nil => simp [getUnique]
    | cons y t2 => simp [getUnique]

theorem getUnique_mem {α : Type} {l : List α} {a : α} (h : getUnique l = some a) : a ∈ l := by
  rw [getUnique_eq_some] at h; simp [h]

theorem studentById_id {db : DB} {sid : Nat} {s : Student}
    (h : studentById db sid = some s) : s.id = sid := by
  have hm := getUnique_mem h
  have := List.mem_filter.mp hm
  simpa using this.2

theorem studentById_mem {db : DB} {sid : Nat} {s : Student}
    (h : studentById db sid = some s) : s ∈ db.students := by
  have hm := getUnique_mem h
  exact (List.mem_filter.mp hm).1

theorem studentByAdminId_adminId {db : DB} {uid : Nat} {s : Student}
    (h : studentByAdminId db uid = some s) : s.admin.id = uid := by
  have hm := getUnique_mem h
  have := List.mem_filter.mp hm
  simpa using this.2

theorem studentByAdminId_mem {db : DB} {uid : Nat} {s : Student}
    (h : studentByAdminId db uid = some s) : s ∈ db.students := by
  have hm := getUnique_mem h
  exact (List.mem_filter.mp hm).1

theorem subjectById_id {db : DB} {i : Nat} {s : Subject}
    (h : subjectById db i = some s) : s.id = i := by
  have hm := getUnique_mem h
  have := List.mem_filter.mp hm
  simpa using this.2

theorem mem_reportsFor {db : DB} {s a : Nat} {r : AttendanceReport}
    (h : r ∈ reportsFor db s a) : r ∈ db.reports ∧ r.studentId = s ∧ r.attendanceId = a := by
  have h2 := List.mem_filter.mp h
  have h3 := h2.2
  simp only [Bool.and_eq_true, beq_iff_eq] at h3
  exact ⟨h2.1, h3.1, h3.2⟩

/-! ### Inversion and frame lemmas for the attendance flows -/

theorem getOrCreateAttendance_spec {db db1 : DB} {sess subj : Nat} {date : String}
    {a : Attendance} {c : Bool}
    (h : getOrCreateAttendance db sess subj date = some (db1, a, c)) :
    (c = false ∧ db1 = db ∧ attendancesFor db sess subj date = [a]) ∨
    (c = true ∧ attendancesFor db sess subj date = [] ∧
      a = ⟨db.nextAttendanceId, sess, subj, date⟩ ∧
      db1 = { db with attendances := db.attendances ++ [a],
                      nextAttendanceId := db.nextAttendanceId + 1 }) := by
  unfold getOrCreateAttendance at h
  split at h
  · right
    simp only [Option.some.injEq, Prod.mk.injEq] at h
    exact ⟨h.2.2.symm, by assumption, h.2.1.symm, by rw [← h.1, ← h.2.1]⟩
  · left
    simp only [Option.some.injEq, Prod.mk.injEq] at h
    exact ⟨h.2.2.symm, h.1.symm, by simp_all⟩
  · exact absurd h (by simp)

theorem getOrCreateReport_spec {db db1 : DB} {s att : Nat}
    {rep : AttendanceReport} {c : Bool}
    (h : getOrCreateReport db s att = some (db1, rep, c)) :
    (c = false ∧ db1 = db ∧ reportsFor db s att = [rep]) ∨
    (c = true ∧ reportsFor db s att = [] ∧
      rep = ⟨db.nextReportId, s, att, false⟩ ∧
      db1 = { db with reports := db.reports ++ [rep],
                      nextReportId := db.nextReportId + 1 }) := by
  unfold getOrCreateReport at h
  split at h
  · right
    simp only [Option.some.injEq, Prod.mk.injEq] at h
    exact ⟨h.2.2.symm, by assumption, h.2.1.symm, by rw [← h.1, ← h.2.1]⟩
  · left
    simp only [Option.some.injEq, Prod.mk.injEq] at h
    exact ⟨h.2.2.symm, h.1.symm, by simp_all⟩
  · exact absurd h (by simp)

/-- The save loop only touches the reports table and its counter. -/
theorem processStudents_shape : ∀ (pairs : List (Nat × Bool)) (db : DB) (att : Nat),
    ∃ rs n, (processStudents db att pairs).1 = { db with reports := rs, nextReportId := n } := by
  intro pairs
  induction pairs with
  | nil => intro db att; exact ⟨db.reports, db.nextReportId, rfl⟩
  | cons p rest ih =>
    intro db att
    obtain ⟨sid, stVal⟩ := p
    simp only [processStudents]
    split
    · exact ⟨db.reports, db.nextReportId, rfl⟩
    next stu h1 =>
      split
      · exact ⟨db.reports, db.nextReportId, rfl⟩
      next db1 rep created h2 =>
        rcases getOrCreateReport_spec h2 with ⟨hc, hdb, _⟩ | ⟨hc, _, _, hdb⟩
        · subst hc
          subst hdb
          rw [if_neg Bool.false_ne_true]
          exact ih db1 att
        · subst hc
          subst hdb
          rw [if_pos rfl]
          obtain ⟨rs, n, hres⟩ := ih (setReportStatus
            { db with reports := db.reports ++ [rep], nextReportId := db.nextReportId + 1 }
            rep.id stVal) att
          exact ⟨rs, n, hres⟩

/-- The update loop only touches the reports table. -/
theorem processUpdates_shape : ∀ (pairs : List (Nat × Bool)) (db : DB) (att : Nat),
    ∃ rs, (processUpdates db att pairs).1 = { db with reports := rs } := by
  intro pairs
  induction pairs with
  | nil => intro db att; exact ⟨db.reports, rfl⟩
  | cons p rest ih =>
    intro db att
    obtain ⟨uid, stVal⟩ := p
    simp only [processUpdates]
    split
    · exact ⟨db.reports, rfl⟩
    next stu h1 =>
      split
      · exact ⟨db.reports, rfl⟩
      next rep h2 =>
        obtain ⟨rs, hres⟩ := ih (setReportStatus db rep.id stVal) att
        exact ⟨rs, hres⟩

/-- Appending an event whose key is absent keeps the per-key uniqueness. -/
theorem noDupKeys_append {l : List Attendance} {i sess subj : Nat} {date : String}
    (hnd : noDupKeys l = true)
    (hnew : l.filter (fun x => x.sessionId == sess && x.subjectId == subj && x.date == date) = []) :
    noDupKeys (l ++ [⟨i, sess, subj, date⟩]) = true := by
  induction l with
  | nil => simp [noDupKeys]
  | cons x xs ih =>
    simp only [noDupKeys, Bool.and_eq_true] at hnd
    rw [List.filter_cons] at hnew
    have hx : (x.sessionId == sess && x.subjectId == subj && x.date == date) = false := by
      by_cases hc : (x.sessionId == sess && x.subjectId == subj && x.date == date) = true
      · rw [if_pos hc] at hnew; exact absurd hnew (by simp)
      · simpa using hc
    rw [if_neg (by simp [hx])] at hnew
    simp only [List.cons_append, noDupKeys, List.all_append, Bool.and_eq_true]
    constructor
    · have hx' : ¬(x.sessionId = sess ∧ x.subjectId = subj ∧ x.date = date) := by
        simpa using hx
      simp only [List.append_eq, List.all_append, Bool.and_eq_true]
      refine ⟨hnd.1, ?_⟩
      simp only [List.all_cons, List.all_nil, Bool.and_true, Bool.not_eq_true']
      simp only [Bool.and_eq_true, beq_iff_eq, not_and] at hx'
      by_contra hcon
      simp only [Bool.not_eq_false, Bool.and_eq_true, beq_iff_eq] at hcon
      exact hx' hcon.1.1.symm hcon.1.2.symm hcon.2.symm
    · exact ih hnd.2 hnew

/-- One submit-attendance call only ever appends to the events table. -/
theorem save_attendance_attendances_append (db : DB) (sess subj : Nat) (date : String)
    (pairs : List (Nat × Bool)) :
    ∃ tail, (save_attendance db sess subj date pairs).1.attendances = db.attendances ++ tail := by
  unfold save_attendance
  by_cases hs : db.sessions.contains sess
  · rw [if_pos hs]
    split
    · exact ⟨[], by simp⟩
    next sub hsub =>
      split
      · exact ⟨[], by simp⟩
      next db1 a c hgc =>
        obtain ⟨rs, n, hsh⟩ := processStudents_shape pairs db1 a.id
        have hatt : (processStudents db1 a.id pairs).1.attendances = db1.attendances := by
          rw [hsh]
        rcases getOrCreateAttendance_spec hgc with ⟨_, hdb, _⟩ | ⟨_, _, _, hdb⟩
        · exact ⟨[], by rw [hatt, hdb]; simp⟩
        · exact ⟨[a], by rw [hatt, hdb]⟩
  · rw [if_neg hs]; exact ⟨[], by simp⟩

/-- One submit-attendance call preserves per-key uniqueness of events. -/
theorem save_attendance_noDupKeys (db : DB) (sess subj : Nat) (date : String)
    (pairs : List (Nat × Bool)) (h : noDupKeys db.attendances = true) :
    noDupKeys (save_attendance db sess subj date pairs).1.attendances = true := by
  unfold save_attendance
  by_cases hs : db.sessions.contains sess
  · rw [if_pos hs]
    split
    · exact h
    next sub hsub =>
      split
      · exact h
      next db1 a c hgc =>
        obtain ⟨rs, n, hsh⟩ := processStudents_shape pairs db1 a.id
        have hatt : (processStudents db1 a.id pairs).1.attendances = db1.attendances := by
          rw [hsh]
        rcases getOrCreateAttendance_spec hgc with ⟨_, hdb, _⟩ | ⟨_, hemp, ha, hdb⟩
        · rw [hatt, hdb]
          exact h
        · rw [hatt, hdb]
          subst ha
          exact noDupKeys_append h hemp
  · rw [if_neg hs]; exact h

/-- A sequence of submit-attendance calls preserves per-key uniqueness. -/
theorem submitSeq_noDupKeys : ∀ (calls : List SaveCall) (db : DB),
    noDupKeys db.attendances = true → noDupKeys (submitSeq db calls).attendances = true := by
  intro calls
  induction calls with
  | nil => intro db h; exact h
  | cons c cs ih =>
    intro db h
    exact ih _ (save_attendance_noDupKeys db c.sessionId c.subjectId c.date c.pairs h)

/-! ### Step equations and lemmas for the update loop -/

theorem processUpdates_cons_none {db : DB} {att uid : Nat} {stVal : Bool}
    {rest : List (Nat × Bool)} (h : studentByAdminId db uid = none) :
    processUpdates db att ((uid, stVal) :: rest) = (db, false) := by
  simp [processUpdates, h]

theorem processUpdates_cons_noreport {db : DB} {att uid : Nat} {stVal : Bool}
    {rest : List (Nat × Bool)} {stu : Student}
    (h1 : studentByAdminId db uid = some stu) (h2 : reportFor db stu.id att = none) :
    processUpdates db att ((uid, stVal) :: rest) = (db, false) := by
  simp [processUpdates, h1, h2]

theorem processUpdates_cons_step {db : DB} {att uid : Nat} {stVal : Bool}
    {rest : List (Nat × Bool)} {stu : Student} {rep : AttendanceReport}
    (h1 : studentByAdminId db uid = some stu) (h2 : reportFor db stu.id att = some rep) :
    processUpdates db att ((uid, stVal) :: rest)
      = processUpdates (setReportStatus db rep.id stVal) att rest := by
  simp [processUpdates, h1, h2]

/-- Overwriting one report's status rewrites the (student, event) filter
pointwise. -/
theorem reportsFor_setReportStatus (db : DB) (i : Nat) (v : Bool) (s att : Nat) :
    reportsFor (setReportStatus db i v) s att =
      (reportsFor db s att).map
        (fun r => if r.id == i then { r with status := v } else r) := by
  simp only [reportsFor, setReportStatus]
  rw [List.filter_map]
  congr 1
  apply List.filter_congr
  intro x hx
  by_cases hc : x.id == i <;> simp [hc, Function.comp]

/-- Overwriting a report status never touches the events table. -/
theorem attendancesFor_setReportStatus (db : DB) (i : Nat) (v : Bool)
    (sess subj : Nat) (date : String) :
    attendancesFor (setReportStatus db i v) sess subj date
      = attendancesFor db sess subj date := rfl

/-- Overwriting a status never changes the stored primary keys. -/
theorem setReportStatus_ids (db : DB) (i : Nat) (v : Bool) :
    (setReportStatus db i v).reports.map (fun r => r.id)
      = db.reports.map (fun r => r.id) := by
  simp only [setReportStatus, List.map_map]
  apply List.map_eq_map_iff.mpr
  intro x hx
  by_cases hc : x.id == i <;> simp [hc, Function.comp]

/-- In a list whose image under `f` is duplicate-free, members with equal
`f`-value are equal. -/
theorem uniqueIds_mem_inj {α : Type} {f : α → Nat} : ∀ {l : List α},
    uniqueIds (l.map f) = true →
    ∀ {a b : α}, a ∈ l → b ∈ l → f a = f b → a = b := by
  intro l
  induction l with
  | nil => intro _ a b ha; exact absurd ha (List.not_mem_nil a)
  | cons x t ih =>
    intro h a b ha hb hf
    simp only [List.map_cons, uniqueIds, Bool.and_eq_true] at h
    have h1 : (!(t.map f).contains (f x)) = true := h.1
    have hnc : f x ∉ t.map f := by
      intro hmem
      have hc : (t.map f).contains (f x) = true := List.elem_iff.mpr hmem
      rw [hc] at h1
      simp at h1
    rcases List.mem_cons.mp ha with rfl | ha2
    · rcases List.mem_cons.mp hb with rfl | hb2
      · rfl
      · exact absurd (by rw [hf]; exact List.mem_map_of_mem f hb2) hnc
    · rcases List.mem_cons.mp hb with rfl | hb2
      · exact absurd (by rw [← hf]; exact List.mem_map_of_mem f ha2) hnc
      · exact ih h.2 ha2 hb2 hf

/-- The update loop never touches the reports of a student it does not name:
if every pair of the batch resolves to a student other than `sid`, the
(sid, event) filter is unchanged. -/
theorem processUpdates_other_students : ∀ (pairs : List (Nat × Bool)) (db : DB) (att sid : Nat),
    uniqueIds (db.reports.map (fun r => r.id)) = true →
    (∀ q ∈ pairs, ∀ stu', studentByAdminId db q.1 = some stu' → stu'.id ≠ sid) →
    reportsFor (processUpdates db att pairs).1 sid att = reportsFor db sid att := by
  intro pairs
  induction pairs with
  | nil => intro db att sid _ _; rfl
  | cons q rest ih =>
    intro db att sid hids hdiff
    obtain ⟨uid, stVal⟩ := q
    cases h1 : studentByAdminId db uid with
    | none => rw [processUpdates_cons_none h1]
    | some stu =>
      cases h2 : reportFor db stu.id att with
      | none => rw [processUpdates_cons_noreport h1 h2]
      | some rep =>
        rw [processUpdates_cons_step h1 h2]
        have hrep := mem_reportsFor (getUnique_mem h2)
        have hstu_ne : stu.id ≠ sid := hdiff (uid, stVal) (List.mem_cons_self _ _) stu h1
        have hpatch : reportsFor (setReportStatus db rep.id stVal) sid att
            = reportsFor db sid att := by
          rw [reportsFor_setReportStatus]
          conv_rhs => rw [← List.map_id (reportsFor db sid att)]
          apply List.map_eq_map_iff.mpr
          intro x hx
          have hxm := mem_reportsFor hx
          have hxne : x ≠ rep := by
            intro he
            exact hstu_ne (by rw [← hrep.2.1, ← he, hxm.2.1])
          have hidne : x.id ≠ rep.id :=
            fun hid => hxne (uniqueIds_mem_inj hids hxm.1 hrep.1 hid)
          simp [hidne]
        have hids1 : uniqueIds ((setReportStatus db rep.id stVal).reports.map
            (fun r => r.id)) = true := by
          rw [setReportStatus_ids]; exact hids
        have hdiff1 : ∀ q2 ∈ rest, ∀ stu',
            studentByAdminId (setReportStatus db rep.id stVal) q2.1 = some stu' →
            stu'.id ≠ sid :=
          fun q2 hq2 stu' h' => hdiff q2 (List.mem_cons_of_mem _ hq2) stu' h'
        rw [ih (setReportStatus db rep.id stVal) att sid hids1 hdiff1, hpatch]

/-- On a successful run with distinct payload ids, the update loop overwrites
each named student's unique report with the submitted status. -/
theorem processUpdates_success_overwrites : ∀ (pairs : List (Nat × Bool)) (db : DB) (att : Nat),
    uniqueIds (db.students.map (fun s => s.id)) = true →
    uniqueIds (db.students.map (fun s => s.admin.id)) = true →
    uniqueIds (db.reports.map (fun r => r.id)) = true →
    (pairs.map Prod.fst).Nodup →
    (processUpdates db att pairs).2 = true →
    ∀ p ∈ pairs, ∃ stu r, studentByAdminId db p.1 = some stu ∧
      reportsFor (processUpdates db att pairs).1 stu.id att = [r] ∧ r.status = p.2 := by
  intro pairs
  induction pairs with
  | nil => intro db att _ _ _ _ _ p hp; exact absurd hp (List.not_mem_nil p)
  | cons q rest ih =>
    intro db att hsid haid hrid hnd hsucc p hp
    obtain ⟨uid, stVal⟩ := q
    cases h1 : studentByAdminId db uid with
    | none => rw [processUpdates_cons_none h1] at hsucc; exact absurd hsucc (by simp)
    | some stu =>
      cases h2 : reportFor db stu.id att with
      | none => rw [processUpdates_cons_noreport h1 h2] at hsucc; exact absurd hsucc (by simp)
      | some rep =>
        rw [processUpdates_cons_step h1 h2] at hsucc ⊢
        have hrid1 : uniqueIds ((setReportStatus db rep.id stVal).reports.map
            (fun r => r.id)) = true := by
          rw [setReportStatus_ids]; exact hrid
        have hnd1 : (rest.map Prod.fst).Nodup := (List.nodup_cons.mp hnd).2
        have hfst : uid ∉ rest.map Prod.fst := (List.nodup_cons.mp hnd).1
        rcases List.mem_cons.mp hp with hphead | hptail
        · subst hphead
          have hl : reportsFor db stu.id att = [rep] := getUnique_eq_some.mp h2
          have hpatch : reportsFor (setReportStatus db rep.id stVal) stu.id att
              = [{ rep with status := stVal }] := by
            rw [reportsFor_setReportStatus, hl]
            simp
          have hdiff : ∀ q2 ∈ rest, ∀ stu',
              studentByAdminId (setReportStatus db rep.id stVal) q2.1 = some stu' →
              stu'.id ≠ stu.id := by
            intro q2 hq2 stu' h'
            have h'' : studentByAdminId db q2.1 = some stu' := h'
            have haq : stu'.admin.id = q2.1 := studentByAdminId_adminId h''
            have hau : stu.admin.id = uid := studentByAdminId_adminId h1
            have hne : q2.1 ≠ uid :=
              fun he => hfst (he ▸ List.mem_map_of_mem Prod.fst hq2)
            intro hid_eq
            have heqs : stu' = stu :=
              uniqueIds_mem_inj hsid (studentByAdminId_mem h'') (studentByAdminId_mem h1) hid_eq
            exact hne (by rw [← haq, heqs, hau])
          have hV := processUpdates_other_students rest
            (setReportStatus db rep.id stVal) att stu.id hrid1 hdiff
          exact ⟨stu, { rep with status := stVal }, h1, by rw [hV, hpatch], rfl⟩
        · have hres := ih (setReportStatus db rep.id stVal) att hsid haid hrid1
            hnd1 hsucc p hptail
          obtain ⟨stu', r', h1', h2', h3'⟩ := hres
          exact ⟨stu', r', h1', h2', h3'⟩

/-! ### Step equations for the save loop and the save view -/

theorem processStudents_cons_nostudent {db : DB} {att sid : Nat} {stVal : Bool}
    {rest : List (Nat × Bool)} (h : studentById db sid = none) :
    processStudents db att ((sid, stVal) :: rest) = (db, false) := by
  simp [processStudents, h]

theorem processStudents_cons_nogoc {db : DB} {att sid : Nat} {stVal : Bool}
    {rest : List (Nat × Bool)} {stu : Student}
    (h1 : studentById db sid = some stu) (h2 : getOrCreateReport db stu.id att = none) :
    processStudents db att ((sid, stVal) :: rest) = (db, false) := by
  simp [processStudents, h1, h2]

theorem processStudents_cons_existing {db db1 : DB} {att sid : Nat} {stVal : Bool}
    {rest : List (Nat × Bool)} {stu : Student} {rep : AttendanceReport}
    (h1 : studentById db sid = some stu)
    (h2 : getOrCreateReport db stu.id att = some (db1, rep, false)) :
    processStudents db att ((sid, stVal) :: rest) = processStudents db1 att rest := by
  simp [processStudents, h1, h2]

theorem processStudents_cons_created {db db1 : DB} {att sid : Nat} {stVal : Bool}
    {rest : List (Nat × Bool)} {stu : Student} {rep : AttendanceReport}
    (h1 : studentById db sid = some stu)
    (h2 : getOrCreateReport db stu.id att = some (db1, rep, true)) :
    processStudents db att ((sid, stVal) :: rest)
      = processStudents (setReportStatus db1 rep.id stVal) att rest := by
  simp [processStudents, h1, h2]

theorem getOrCreateReport_of_singleton {db : DB} {s att : Nat} {r : AttendanceReport}
    (h : reportsFor db s att = [r]) :
    getOrCreateReport db s att = some (db, r, false) := by
  simp [getOrCreateReport, h]

theorem getOrCreateReport_of_empty {db : DB} {s att : Nat}
    (h : reportsFor db s att = []) :
    getOrCreateReport db s att
      = some ({ db with reports := db.reports ++ [⟨db.nextReportId, s, att, false⟩],
                        nextReportId := db.nextReportId + 1 },
              ⟨db.nextReportId, s, att, false⟩, true) := by
  simp [getOrCreateReport, h]

theorem getOrCreateAttendance_of_singleton {db : DB} {sess subj : Nat} {date : String}
    {a : Attendance} (h : attendancesFor db sess subj date = [a]) :
    getOrCreateAttendance db sess subj date = some (db, a, false) := by
  simp [getOrCreateAttendance, h]

theorem getOrCreateAttendance_of_empty {db : DB} {sess subj : Nat} {date : String}
    (h : attendancesFor db sess subj date = []) :
    getOrCreateAttendance db sess subj date
      = some ({ db with attendances := db.attendances ++ [⟨db.nextAttendanceId, sess, subj, date⟩],
                        nextAttendanceId := db.nextAttendanceId + 1 },
              ⟨db.nextAttendanceId, sess, subj, date⟩, true) := by
  simp [getOrCreateAttendance, h]

theorem save_attendance_eq_noSession {db : DB} {sess subj : Nat} {date : String}
    {pairs : List (Nat × Bool)} (hs : sess ∉ db.sessions) :
    save_attendance db sess subj date pairs = (db, SaveResp.error) := by
  simp [save_attendance, hs]

theorem save_attendance_eq_noSubject {db : DB} {sess subj : Nat} {date : String}
    {pairs : List (Nat × Bool)} (hs : sess ∈ db.sessions)
    (hsub : subjectById db subj = none) :
    save_attendance db sess subj date pairs = (db, SaveResp.error) := by
  simp [save_attendance, hs, hsub]

theorem save_attendance_eq_gocFail {db : DB} {sess subj : Nat} {date : String}
    {pairs : List (Nat × Bool)} {sub : Subject} (hs : sess ∈ db.sessions)
    (hsub : subjectById db subj = some sub)
    (hgoc : getOrCreateAttendance db sess sub.id date = none) :
    save_attendance db sess subj date pairs = (db, SaveResp.error) := by
  simp [save_attendance, hs, hsub, hgoc]

theorem save_attendance_eq_run {db db1 : DB} {sess subj : Nat} {date : String}
    {pairs : List (Nat × Bool)} {sub : Subject} {a : Attendance} {c : Bool}
    (hs : sess ∈ db.sessions)
    (hsub : subjectById db subj = some sub)
    (hgoc : getOrCreateAttendance db sess sub.id date = some (db1, a, c)) :
    save_attendance db sess subj date pairs
      = ((processStudents db1 a.id pairs).1,
         if (processStudents db1 a.id pairs).2 then SaveResp.ok else SaveResp.error) := by
  simp [save_attendance, hs, hsub, hgoc]

/-- The save loop preserves "exactly one report" for any (student, event)
pair: it only ever creates reports for pairs that had none, and only patches
statuses. -/
theorem processStudents_singleton : ∀ (pairs : List (Nat × Bool)) (db : DB) (att s : Nat)
    (r : AttendanceReport), reportsFor db s att = [r] →
    ∃ r', reportsFor (processStudents db att pairs).1 s att = [r'] := by
  intro pairs
  induction pairs with
  | nil => intro db att s r h; exact ⟨r, h⟩
  | cons q rest ih =>
    intro db att s r h
    obtain ⟨sid, stVal⟩ := q
    cases h1 : studentById db sid with
    | none => rw [processStudents_cons_nostudent h1]; exact ⟨r, h⟩
    | some stu =>
      cases h2 : getOrCreateReport db stu.id att with
      | none => rw [processStudents_cons_nogoc h1 h2]; exact ⟨r, h⟩
      | some res =>
        obtain ⟨db1, rep, created⟩ := res
        rcases getOrCreateReport_spec h2 with ⟨hc, hdb, hsing⟩ | ⟨hc, hemp, hrep, hdb⟩
        · subst hc
          rw [hdb] at h2
          rw [processStudents_cons_existing h1 h2]
          exact ih db att s r h
        · subst hc; subst hrep; subst hdb
          rw [processStudents_cons_created h1 h2]
          have hne : stu.id ≠ s := by
            intro he
            rw [he] at hemp
            rw [hemp] at h
            exact absurd h (by simp)
          have happ : reportsFor
              { db with reports := db.reports ++ [⟨db.nextReportId, stu.id, att, false⟩],
                        nextReportId := db.nextReportId + 1 } s att = [r] := by
            simp only [reportsFor, List.filter_append] at h ⊢
            rw [h]
            simp [hne]
          have hpatched : reportsFor (setReportStatus
              { db with reports := db.reports ++ [⟨db.nextReportId, stu.id, att, false⟩],
                        nextReportId := db.nextReportId + 1 }
              (⟨db.nextReportId, stu.id, att, false⟩ : AttendanceReport).id stVal) s att
              = [if r.id == db.nextReportId then { r with status := stVal } else r] := by
            rw [reportsFor_setReportStatus, happ]
            rfl
          exact ih _ att s _ hpatched

/-- Re-running the save loop on its own output state changes nothing: every
pair now finds an existing report and is skipped. -/
theorem processStudents_idem : ∀ (pairs : List (Nat × Bool)) (db : DB) (att : Nat),
    processStudents (processStudents db att pairs).1 att pairs = processStudents db att pairs := by
  intro pairs
  induction pairs with
  | nil => intro db att; rfl
  | cons q rest ih =>
    intro db att
    obtain ⟨sid, stVal⟩ := q
    cases h1 : studentById db sid with
    | none =>
      rw [processStudents_cons_nostudent h1]
      exact processStudents_cons_nostudent h1
    | some stu =>
      cases h2 : getOrCreateReport db stu.id att with
      | none =>
        rw [processStudents_cons_nogoc h1 h2]
        exact processStudents_cons_nogoc h1 h2
      | some res =>
        obtain ⟨db1, rep, created⟩ := res
        rcases getOrCreateReport_spec h2 with ⟨hc, hdb, hsing⟩ | ⟨hc, hemp, hrep, hdb⟩
        · subst hc
          rw [hdb] at h2
          rw [processStudents_cons_existing h1 h2]
          obtain ⟨rs, n, hsh⟩ := processStudents_shape rest db att
          have h1' : studentById (processStudents db att rest).1 sid = some stu := by
            rw [hsh]; exact h1
          obtain ⟨r', hr'⟩ := processStudents_singleton rest db att stu.id rep hsing
          rw [processStudents_cons_existing h1' (getOrCreateReport_of_singleton hr')]
          exact ih db att
        · subst hc; subst hrep; subst hdb
          rw [processStudents_cons_created h1 h2]
          have happ : reportsFor
              { db with reports := db.reports ++ [⟨db.nextReportId, stu.id, att, false⟩],
                        nextReportId := db.nextReportId + 1 } stu.id att
              = [⟨db.nextReportId, stu.id, att, false⟩] := by
            simp only [reportsFor, List.filter_append] at hemp ⊢
            rw [hemp]
            simp
          have hsing0 : reportsFor (setReportStatus
              { db with reports := db.reports ++ [⟨db.nextReportId, stu.id, att, false⟩],
                        nextReportId := db.nextReportId + 1 }
              (⟨db.nextReportId, stu.id, att, false⟩ : AttendanceReport).id stVal) stu.id att
              = [⟨db.nextReportId, stu.id, att, stVal⟩] := by
            rw [reportsFor_setReportStatus, happ]
            simp
          obtain ⟨r', hr'⟩ := processStudents_singleton rest _ att stu.id _ hsing0
          obtain ⟨rs, n, hsh⟩ := processStudents_shape rest (setReportStatus
              { db with reports := db.reports ++ [⟨db.nextReportId, stu.id, att, false⟩],
                        nextReportId := db.nextReportId + 1 }
              (⟨db.nextReportId, stu.id, att, false⟩ : AttendanceReport).id stVal) att
          have h1' : studentById (processStudents (setReportStatus
              { db with reports := db.reports ++ [⟨db.nextReportId, stu.id, att, false⟩],
                        nextReportId := db.nextReportId + 1 }
              (⟨db.nextReportId, stu.id, att, false⟩ : AttendanceReport).id stVal) att rest).1 sid
              = some stu := by
            rw [hsh]; exact h1
          rw [processStudents_cons_existing h1' (getOrCreateReport_of_singleton hr')]
          exact ih _ att

/-- Submitting the same attendance batch twice is the same as submitting it
once: the second call finds the event and every report already present and
writes nothing. -/
theorem save_attendance_idem (db : DB) (sess subj : Nat) (date : String)
    (pairs : List (Nat × Bool)) :
    save_attendance (save_attendance db sess subj date pairs).1 sess subj date pairs
      = save_attendance db sess subj date pairs := by
  by_cases hs : sess ∈ db.sessions
  · cases hsub : subjectById db subj with
    | none =>
      rw [save_attendance_eq_noSubject hs hsub]
      exact save_attendance_eq_noSubject hs hsub
    | some sub =>
      cases hgoc : getOrCreateAttendance db sess sub.id date with
      | none =>
        rw [save_attendance_eq_gocFail hs hsub hgoc]
        exact save_attendance_eq_gocFail hs hsub hgoc
      | some res =>
        obtain ⟨db1, a, c⟩ := res
        rw [save_attendance_eq_run hs hsub hgoc]
        have hred : (((processStudents db1 a.id pairs).1,
            if (processStudents db1 a.id pairs).2 then SaveResp.ok else SaveResp.error)).1
            = (processStudents db1 a.id pairs).1 := rfl
        rw [hred]
        obtain ⟨rs, n, hsh⟩ := processStudents_shape pairs db1 a.id
        rcases getOrCreateAttendance_spec hgoc with ⟨hc, hdb, hsing⟩ | ⟨hc, hemp, ha, hdb⟩
        · rw [hdb] at hsh hgoc
          have hs2 : sess ∈ (processStudents db a.id pairs).1.sessions := by
            rw [hsh]; exact hs
          have hsub2 : subjectById (processStudents db a.id pairs).1 subj = some sub := by
            rw [hsh]; exact hsub
          have hsing2 : attendancesFor (processStudents db a.id pairs).1 sess sub.id date
              = [a] := by
            rw [hsh]; exact hsing
          rw [hdb]
          rw [save_attendance_eq_run hs2 hsub2 (getOrCreateAttendance_of_singleton hsing2)]
          rw [processStudents_idem pairs db a.id]
        · subst hc; subst hdb
          have hs2 : sess ∈ (processStudents
              { db with attendances := db.attendances ++ [a],
                        nextAttendanceId := db.nextAttendanceId + 1 } a.id pairs).1.sessions := by
            rw [hsh]; exact hs
          have hsub2 : subjectById (processStudents
              { db with attendances := db.attendances ++ [a],
                        nextAttendanceId := db.nextAttendanceId + 1 } a.id pairs).1 subj
              = some sub := by
            rw [hsh]; exact hsub
          have hsing2 : attendancesFor (processStudents
              { db with attendances := db.attendances ++ [a],
                        nextAttendanceId := db.nextAttendanceId + 1 } a.id pairs).1 sess sub.id date
              = [a] := by
            rw [hsh]
            show attendancesFor
              { db with attendances := db.attendances ++ [a],
                        nextAttendanceId := db.nextAttendanceId + 1 } sess sub.id date = [a]
            simp only [attendancesFor, List.filter_append] at hemp ⊢
            rw [hemp]
            subst ha
            simp
          rw [save_attendance_eq_run hs2 hsub2 (getOrCreateAttendance_of_singleton hsing2)]
          rw [processStudents_idem pairs
            { db with attendances := db.attendances ++ [a],
                      nextAttendanceId := db.nextAttendanceId + 1 } a.id]
  · rw [save_attendance_eq_noSession hs]
    exact save_attendance_eq_noSession hs

/-! ### C6, C9, C10: concrete executions of the embedded views -/

/-- C6: submit-attendance batches are not atomic.  Concretely: session 1,
subject 1 and student 1 exist but student 2 does not; submitting the batch
[(1, present), (2, present)] fails while processing the second pair and the
whole request returns the generic error outcome, yet the AttendanceEvent and
student 1's report (with its submitted status) remain committed — the partial
writes are not rolled back. -/
theorem c6_save_attendance_not_atomic :
    (save_attendance ⟨[1], [⟨1, 1⟩], [⟨1, ⟨10, "A", "B"⟩, some 1, some 1⟩],
        [], [], [], 1, 1, 1⟩ 1 1 "2024-01-01" [(1, true), (2, true)]).2 = SaveResp.error ∧
    (save_attendance ⟨[1], [⟨1, 1⟩], [⟨1, ⟨10, "A", "B"⟩, some 1, some 1⟩],
        [], [], [], 1, 1, 1⟩ 1 1 "2024-01-01" [(1, true), (2, true)]).1.attendances
      = [⟨1, 1, 1, "2024-01-01"⟩] ∧
    reportFor (save_attendance ⟨[1], [⟨1, 1⟩], [⟨1, ⟨10, "A", "B"⟩, some 1, some 1⟩],
        [], [], [], 1, 1, 1⟩ 1 1 "2024-01-01" [(1, true), (2, true)]).1 1 1
      = some ⟨1, 1, 1, true⟩ := by
  refine ⟨?_, ?_, ?_⟩ <;> decide

/-- C9: the save flow resolves payload ids as `Student.id` while the update
flow resolves them as the user-account id (`admin_id`).  In a state holding
student row 1 with account id 2 and student row 2 with account id 1, the two
lookups resolve payload id 1 to different students; accordingly the save flow
writes a report for student row 1, while the update flow (on a state where
both rows have reports) overwrites the report of student row 2 and leaves
student row 1's report untouched. -/
theorem c9_save_and_update_resolve_ids_differently :
    (studentById ⟨[1], [⟨1, 1⟩],
        [⟨1, ⟨2, "A", "B"⟩, some 1, some 1⟩, ⟨2, ⟨1, "C", "D"⟩, some 1, some 1⟩],
        [], [], [], 1, 1, 1⟩ 1 = some ⟨1, ⟨2, "A", "B"⟩, some 1, some 1⟩) ∧
    (studentByAdminId ⟨[1], [⟨1, 1⟩],
        [⟨1, ⟨2, "A", "B"⟩, some 1, some 1⟩, ⟨2, ⟨1, "C", "D"⟩, some 1, some 1⟩],
        [], [], [], 1, 1, 1⟩ 1 = some ⟨2, ⟨1, "C", "D"⟩, some 1, some 1⟩) ∧
    (reportsFor (save_attendance ⟨[1], [⟨1, 1⟩],
        [⟨1, ⟨2, "A", "B"⟩, some 1, some 1⟩, ⟨2, ⟨1, "C", "D"⟩, some 1, some 1⟩],
        [], [], [], 1, 1, 1⟩ 1 1 "d" [(1, true)]).1 1 1 = [⟨1, 1, 1, true⟩]) ∧
    (reportsFor (save_attendance ⟨[1], [⟨1, 1⟩],
        [⟨1, ⟨2, "A", "B"⟩, some 1, some 1⟩, ⟨2, ⟨1, "C", "D"⟩, some 1, some 1⟩],
        [], [], [], 1, 1, 1⟩ 1 1 "d" [(1, true)]).1 2 1 = []) ∧
    ((update_attendance ⟨[1], [⟨1, 1⟩],
        [⟨1, ⟨2, "A", "B"⟩, some 1, some 1⟩, ⟨2, ⟨1, "C", "D"⟩, some 1, some 1⟩],
        [⟨1, 1, 1, "d"⟩], [⟨1, 1, 1, false⟩, ⟨2, 2, 1, false⟩], [], 2, 3, 1⟩ 1 [(1, true)]).1.reports
      = [⟨1, 1, 1, false⟩, ⟨2, 2, 1, true⟩]) := by
  refine ⟨?_, ?_, ?_, ?_, ?_⟩ <;> decide

/-- C10: on failure the student-listing and attendance-reading AJAX views
return the raw caught exception object, not an HTTP response: on an empty
database (so subject 1, session 1 and event 1 do not exist) both views yield
the exception value. -/
theorem c10_ajax_views_return_exception_object :
    get_students ⟨[], [], [], [], [], [], 1, 1, 1⟩ 1 1 = AjaxResp.exceptionObject ∧
    isHttpResponse (get_students ⟨[], [], [], [], [], [], 1, 1, 1⟩ 1 1) = false ∧
    get_student_attendance ⟨[], [], [], [], [], [], 1, 1, 1⟩ 1 = AjaxResp.exceptionObject ∧
    isHttpResponse (get_student_attendance ⟨[], [], [], [], [], [], 1, 1, 1⟩ 1) = false := by
  refine ⟨?_, ?_, ?_, ?_⟩ <;> decide

/-! ### C7: the post-save profile hook -/

/-- C7: creating a user whose role tag is admin (1), staff (2) or student (3)
fires the post-save hook, which inserts exactly one profile row of the
matching kind: a user owning no profile row beforehand owns exactly one
afterwards, in the table matching its role tag. -/
theorem c7_create_user_profile_matches_role (st : ProfileState) (uid t : Nat)
    (hnew : ownedProfiles st uid = 0) (ht : t = 1 ∨ t = 2 ∨ t = 3) :
    ownedProfiles (create_user st uid t) uid = 1 ∧
    (t = 1 → uid ∈ (create_user st uid t).adminRows) ∧
    (t = 2 → uid ∈ (create_user st uid t).staffRows) ∧
    (t = 3 → uid ∈ (create_user st uid t).studentRows) := by
  simp only [ownedProfiles] at hnew
  have h1 : (st.adminRows.filter (fun i => i == uid)).length = 0 := by omega
  have h2 : (st.staffRows.filter (fun i => i == uid)).length = 0 := by omega
  have h3 : (st.studentRows.filter (fun i => i == uid)).length = 0 := by omega
  rcases ht with h | h | h <;> subst h <;>
    simp [create_user, create_user_profile, ownedProfiles, List.filter_append, h1, h2, h3]

/-- Witness for C7 at a concrete input: a fresh state and a staff user. -/
theorem c7_create_user_profile_matches_role_witness :
    ownedProfiles (create_user ⟨[], [], []⟩ 5 2) 5 = 1 ∧
    5 ∈ (create_user ⟨[], [], []⟩ 5 2).staffRows :=
  ⟨(c7_create_user_profile_matches_role ⟨[], [], []⟩ 5 2 (by decide) (by simp)).1,
   (c7_create_user_profile_matches_role ⟨[], [], []⟩ 5 2 (by decide) (by simp)).2.2.1 rfl⟩

/-! ### C5: result fetch is read-only -/

/-- C5: `fetch_student_result` never changes the stored state; it returns the
current (test, exam) pair when the unique StudentResult row exists and the
not-found signal (`HttpResponse('False')`) when no row exists. -/
theorem c5_fetch_student_result_contract (db : DB) (subjectId studentId : Nat) :
    (fetch_student_result db subjectId studentId).1 = db ∧
    (∀ stu sub r, studentById db studentId = some stu →
      subjectById db subjectId = some sub →
      resultFor db stu.id sub.id = some r →
      (fetch_student_result db subjectId studentId).2 = FetchResp.found r.exam r.test) ∧
    (∀ stu sub, studentById db studentId = some stu →
      subjectById db subjectId = some sub →
      resultsFor db stu.id sub.id = [] →
      (fetch_student_result db subjectId studentId).2 = FetchResp.notFound) := by
  refine ⟨?_, ?_, ?_⟩
  · cases h1 : studentById db studentId with
    | none => simp [fetch_student_result, h1]
    | some stu =>
      cases h2 : subjectById db subjectId with
      | none => simp [fetch_student_result, h1, h2]
      | some sub =>
        cases h3 : resultFor db stu.id sub.id with
        | none => simp [fetch_student_result, h1, h2, h3]
        | some r => simp [fetch_student_result, h1, h2, h3]
  · intro stu sub r h1 h2 h3
    simp [fetch_student_result, h1, h2, h3]
  · intro stu sub h1 h2 h3
    simp [fetch_student_result, h1, h2, resultFor, h3, getUnique]

/-- Witness for C5: concretely, with a stored (test 70, exam 80) row the view
returns `found 80 70` without touching the state, and with no stored row it
returns not-found. -/
theorem c5_fetch_student_result_contract_witness :
    (fetch_student_result ⟨[1], [⟨1, 1⟩], [⟨1, ⟨10, "A", "B"⟩, some 1, some 1⟩],
        [], [], [⟨1, 1, 1, 70, 80⟩], 1, 1, 2⟩ 1 1).1
      = ⟨[1], [⟨1, 1⟩], [⟨1, ⟨10, "A", "B"⟩, some 1, some 1⟩],
        [], [], [⟨1, 1, 1, 70, 80⟩], 1, 1, 2⟩ ∧
    (fetch_student_result ⟨[1], [⟨1, 1⟩], [⟨1, ⟨10, "A", "B"⟩, some 1, some 1⟩],
        [], [], [⟨1, 1, 1, 70, 80⟩], 1, 1, 2⟩ 1 1).2 = FetchResp.found 80 70 ∧
    (fetch_student_result ⟨[1], [⟨1, 1⟩], [⟨1, ⟨10, "A", "B"⟩, some 1, some 1⟩],
        [], [], [], 1, 1, 1⟩ 1 1).2 = FetchResp.notFound :=
  ⟨(c5_fetch_student_result_contract ⟨[1], [⟨1, 1⟩], [⟨1, ⟨10, "A", "B"⟩, some 1, some 1⟩],
        [], [], [⟨1, 1, 1, 70, 80⟩], 1, 1, 2⟩ 1 1).1,
   (c5_fetch_student_result_contract ⟨[1], [⟨1, 1⟩], [⟨1, ⟨10, "A", "B"⟩, some 1, some 1⟩],
        [], [], [⟨1, 1, 1, 70, 80⟩], 1, 1, 2⟩ 1 1).2.1
     ⟨1, ⟨10, "A", "B"⟩, some 1, some 1⟩ ⟨1, 1⟩ ⟨1, 1, 1, 70, 80⟩
     (by decide) (by decide) (by decide),
   (c5_fetch_student_result_contract ⟨[1], [⟨1, 1⟩], [⟨1, ⟨10, "A", "B"⟩, some 1, some 1⟩],
        [], [], [], 1, 1, 1⟩ 1 1).2.2
     ⟨1, ⟨10, "A", "B"⟩, some 1, some 1⟩ ⟨1, 1⟩
     (by decide) (by decide) (by decide)⟩

/-! ### C2: result upsert -/

theorem resultsFor_updateResultFields (db : DB) (i : Nat) (t e : Int) (s subj : Nat) :
    resultsFor (updateResultFields db i t e) s subj =
      (resultsFor db s subj).map
        (fun r => if r.id == i then { r with test := t, exam := e } else r) := by
  simp only [resultsFor, updateResultFields]
  rw [List.filter_map]
  congr 1
  apply List.filter_congr
  intro x hx
  by_cases hc : x.id == i <;> simp [hc, Function.comp]

/-- C2: `staff_add_result` is an upsert keyed on (student, subject).  When
the unique row exists, its test and exam fields are overwritten in place;
when no row exists, a fresh row with the given values is inserted; hence two
successive calls starting from no row leave exactly one row holding the
second call's values. -/
theorem c2_staff_add_result_upsert (db : DB) (studentId subjectId : Nat)
    (stu : Student) (sub : Subject) (t e t1 e1 t2 e2 : Int)
    (hstu : studentById db studentId = some stu)
    (hsub : subjectById db subjectId = some sub) :
    (∀ r, resultFor db stu.id sub.id = some r →
      staff_add_result db studentId subjectId t e
        = (updateResultFields db r.id t e, ResultMsg.scoresUpdated) ∧
      resultsFor (staff_add_result db studentId subjectId t e).1 stu.id sub.id
        = [{ r with test := t, exam := e }]) ∧
    (resultsFor db stu.id sub.id = [] →
      staff_add_result db studentId subjectId t e
        = ({ db with results := db.results ++ [⟨db.nextResultId, stu.id, sub.id, t, e⟩],
                     nextResultId := db.nextResultId + 1 }, ResultMsg.scoresSaved) ∧
      resultsFor (staff_add_result (staff_add_result db studentId subjectId t1 e1).1
          studentId subjectId t2 e2).1 stu.id sub.id
        = [⟨db.nextResultId, stu.id, sub.id, t2, e2⟩]) := by
  constructor
  · intro r hr
    have hl : resultsFor db stu.id sub.id = [r] := getUnique_eq_some.mp hr
    have hidr : r.id == r.id := by simp
    refine ⟨by simp [staff_add_result, hstu, hsub, hr], ?_⟩
    simp [staff_add_result, hstu, hsub, hr, resultsFor_updateResultFields, hl]
  · intro hempty
    have hr : resultFor db stu.id sub.id = none := by
      simp [resultFor, hempty, getUnique]
    refine ⟨by simp [staff_add_result, hstu, hsub, hr], ?_⟩
    have hr1 : resultFor db stu.id sub.id = none := hr
    -- first call inserts the fresh row
    have hcall1 : staff_add_result db studentId subjectId t1 e1
        = ({ db with results := db.results ++ [⟨db.nextResultId, stu.id, sub.id, t1, e1⟩],
                     nextResultId := db.nextResultId + 1 }, ResultMsg.scoresSaved) := by
      simp [staff_add_result, hstu, hsub, hr]
    rw [hcall1]
    set db1 : DB := { db with results := db.results ++ [⟨db.nextResultId, stu.id, sub.id, t1, e1⟩],
                              nextResultId := db.nextResultId + 1 } with hdb1
    have hstu1 : studentById db1 studentId = some stu := hstu
    have hsub1 : subjectById db1 subjectId = some sub := hsub
    have hres1 : resultsFor db1 stu.id sub.id = [⟨db.nextResultId, stu.id, sub.id, t1, e1⟩] := by
      simp only [hdb1, resultsFor]
      rw [List.filter_append]
      have : db.results.filter (fun r => r.studentId == stu.id && r.subjectId == sub.id) = [] := hempty
      simp [this]
    have hr1' : resultFor db1 stu.id sub.id = some ⟨db.nextResultId, stu.id, sub.id, t1, e1⟩ := by
      simp [resultFor, hres1, getUnique]
    simp [staff_add_result, hstu1, hsub1, hr1', resultsFor_updateResultFields, hres1]

/-- Witness for C2: concretely, upserting (70, 80) and then (90, 85) for a
(student, subject) pair with no prior row leaves exactly one row holding
(90, 85); the update branch of the theorem is exercised on a state already
holding a row. -/
theorem c2_staff_add_result_upsert_witness :
    resultsFor (staff_add_result (staff_add_result ⟨[1], [⟨1, 1⟩],
        [⟨1, ⟨10, "A", "B"⟩, some 1, some 1⟩], [], [], [], 1, 1, 1⟩ 1 1 70 80).1
        1 1 90 85).1 1 1 = [⟨1, 1, 1, 90, 85⟩] ∧
    resultsFor (staff_add_result ⟨[1], [⟨1, 1⟩], [⟨1, ⟨10, "A", "B"⟩, some 1, some 1⟩],
        [], [], [⟨1, 1, 1, 70, 80⟩], 1, 1, 2⟩ 1 1 90 85).1 1 1 = [⟨1, 1, 1, 90, 85⟩] :=
  ⟨((c2_staff_add_result_upsert ⟨[1], [⟨1, 1⟩], [⟨1, ⟨10, "A", "B"⟩, some 1, some 1⟩],
        [], [], [], 1, 1, 1⟩ 1 1 ⟨1, ⟨10, "A", "B"⟩, some 1, some 1⟩ ⟨1, 1⟩
        0 0 70 80 90 85 (by decide) (by decide)).2 (by decide)).2,
   ((c2_staff_add_result_upsert ⟨[1], [⟨1, 1⟩], [⟨1, ⟨10, "A", "B"⟩, some 1, some 1⟩],
        [], [], [⟨1, 1, 1, 70, 80⟩], 1, 1, 2⟩ 1 1 ⟨1, ⟨10, "A", "B"⟩, some 1, some 1⟩ ⟨1, 1⟩
        90 85 0 0 0 0 (by decide) (by decide)).1 ⟨1, 1, 1, 70, 80⟩ (by decide)).2⟩

/-! ### C4: the attendance-event invariant -/

/-- C4: across every sequence of submit-attendance calls there is at most one
AttendanceEvent per (subject, session, date) key, and events are never
mutated after creation: a submit call only appends to the events table, and
the update-attendance, result-upsert and result-fetch operations leave the
events table untouched. -/
theorem c4_attendance_event_invariant (db : DB) (calls : List SaveCall)
    (sessionId subjectId attId studentId subjId : Nat) (date : String)
    (pairs upairs : List (Nat × Bool)) (t e : Int) :
    (noDupKeys db.attendances = true → noDupKeys (submitSeq db calls).attendances = true) ∧
    (∃ tail, (save_attendance db sessionId subjectId date pairs).1.attendances
        = db.attendances ++ tail) ∧
    (update_attendance db attId upairs).1.attendances = db.attendances ∧
    (staff_add_result db studentId subjId t e).1.attendances = db.attendances ∧
    (fetch_student_result db subjId studentId).1.attendances = db.attendances := by
  refine ⟨fun h => submitSeq_noDupKeys calls db h,
    save_attendance_attendances_append db sessionId subjectId date pairs, ?_, ?_, ?_⟩
  · unfold update_attendance
    split
    · rfl
    next att hatt =>
      show ((processUpdates db att.id upairs).1).attendances = db.attendances
      obtain ⟨rs, hsh⟩ := processUpdates_shape upairs db att.id
      rw [hsh]
  · unfold staff_add_result
    split
    · rfl
    · split
      · rfl
      · split
        · rfl
        · rfl
  · unfold fetch_student_result
    split
    · rfl
    · split
      · rfl
      · split
        · rfl
        · rfl

/-- Witness for C4 at concrete inputs: two submissions for the same key, then
one for a second key, keep the event list duplicate-free, and the other
operations leave it unchanged. -/
theorem c4_attendance_event_invariant_witness :
    noDupKeys (submitSeq ⟨[1], [⟨1, 1⟩], [⟨1, ⟨10, "A", "B"⟩, some 1, some 1⟩],
        [], [], [], 1, 1, 1⟩
        [⟨1, 1, "d1", [(1, true)]⟩, ⟨1, 1, "d1", [(1, false)]⟩,
         ⟨1, 1, "d2", [(1, true)]⟩]).attendances = true ∧
    (update_attendance ⟨[1], [⟨1, 1⟩], [⟨1, ⟨10, "A", "B"⟩, some 1, some 1⟩],
        [], [], [], 1, 1, 1⟩ 7 [(10, true)]).1.attendances = [] :=
  ⟨(c4_attendance_event_invariant ⟨[1], [⟨1, 1⟩], [⟨1, ⟨10, "A", "B"⟩, some 1, some 1⟩],
        [], [], [], 1, 1, 1⟩
        [⟨1, 1, "d1", [(1, true)]⟩, ⟨1, 1, "d1", [(1, false)]⟩, ⟨1, 1, "d2", [(1, true)]⟩]
        1 1 7 1 1 "d1" [(1, true)] [(10, true)] 0 0).1 (by decide),
   (c4_attendance_event_invariant ⟨[1], [⟨1, 1⟩], [⟨1, ⟨10, "A", "B"⟩, some 1, some 1⟩],
        [], [], [], 1, 1, 1⟩ [] 1 1 7 1 1 "d1" [(1, true)] [(10, true)] 0 0).2.2.1⟩

/-! ### C3: the attendance update flow -/

theorem update_attendance_eq {db : DB} {date : Nat} {pairs : List (Nat × Bool)}
    {att : Attendance} (h : attendanceById db date = some att) :
    update_attendance db date pairs
      = ((processUpdates db att.id pairs).1,
         if (processUpdates db att.id pairs).2 then SaveResp.ok else SaveResp.error) := by
  simp [update_attendance, h]

/-- C3: the update-attendance flow.  On a successful run (distinct payload
ids, well-formed state) every named student's existing report is overwritten
unconditionally with the submitted status (last-write-wins); when the report
for a resolved student does not exist the request fails with the error
outcome and the state is untouched; and no AttendanceEvent is ever created in
this path. -/
theorem c3_update_attendance_contract (db : DB) (date : Nat) (pairs : List (Nat × Bool))
    (att : Attendance) (hatt : attendanceById db date = some att) :
    (WF db = true → (pairs.map Prod.fst).Nodup →
      (update_attendance db date pairs).2 = SaveResp.ok →
      ∀ p ∈ pairs, ∃ stu r, studentByAdminId db p.1 = some stu ∧
        reportsFor (update_attendance db date pairs).1 stu.id att.id = [r] ∧
        r.status = p.2) ∧
    (∀ uid st stu, studentByAdminId db uid = some stu →
      reportsFor db stu.id att.id = [] →
      update_attendance db date [(uid, st)] = (db, SaveResp.error)) ∧
    (update_attendance db date pairs).1.attendances = db.attendances := by
  refine ⟨?_, ?_, ?_⟩
  · intro hwf hnd hok
    rw [update_attendance_eq hatt] at hok ⊢
    have hsucc : (processUpdates db att.id pairs).2 = true := by
      by_cases hb : (processUpdates db att.id pairs).2 = true
      · exact hb
      · rw [if_neg hb] at hok
        exact absurd hok (by simp)
    simp only [WF, Bool.and_eq_true] at hwf
    obtain ⟨⟨⟨⟨⟨⟨⟨⟨hs1, hs2⟩, ha1⟩, ha2⟩, hr1⟩, hr2⟩, hr3⟩, hq1⟩, hq2⟩ := hwf
    intro p hp
    exact processUpdates_success_overwrites pairs db att.id hs1 hs2 hr1 hnd hsucc p hp
  · intro uid st stu hstu hempty
    have hrf : reportFor db stu.id att.id = none := by
      simp [reportFor, hempty, getUnique]
    rw [update_attendance_eq hatt, processUpdates_cons_noreport hstu hrf]
    rfl
  · rw [update_attendance_eq hatt]
    show (processUpdates db att.id pairs).1.attendances = db.attendances
    obtain ⟨rs, hsh⟩ := processUpdates_shape pairs db att.id
    rw [hsh]

/-- Witness for C3: in a state with two students (account ids 10 and 11) and
their reports on event 1, updating with [(10, true), (11, false)] overwrites
both reports; on a state where the report is missing the call fails and
changes nothing; and the events table is untouched. -/
theorem c3_update_attendance_contract_witness :
    (∃ stu r, studentByAdminId ⟨[1], [⟨1, 1⟩],
        [⟨1, ⟨10, "A", "B"⟩, some 1, some 1⟩, ⟨2, ⟨11, "C", "D"⟩, some 1, some 1⟩],
        [⟨1, 1, 1, "d"⟩], [⟨1, 1, 1, false⟩, ⟨2, 2, 1, false⟩], [], 2, 3, 1⟩ 10 = some stu ∧
      reportsFor (update_attendance ⟨[1], [⟨1, 1⟩],
        [⟨1, ⟨10, "A", "B"⟩, some 1, some 1⟩, ⟨2, ⟨11, "C", "D"⟩, some 1, some 1⟩],
        [⟨1, 1, 1, "d"⟩], [⟨1, 1, 1, false⟩, ⟨2, 2, 1, false⟩], [], 2, 3, 1⟩ 1
        [(10, true), (11, false)]).1 stu.id 1 = [r] ∧ r.status = true) ∧
    update_attendance ⟨[1], [⟨1, 1⟩],
        [⟨1, ⟨10, "A", "B"⟩, some 1, some 1⟩, ⟨2, ⟨11, "C", "D"⟩, some 1, some 1⟩],
        [⟨1, 1, 1, "d"⟩], [⟨2, 2, 1, false⟩], [], 2, 3, 1⟩ 1 [(10, true)]
      = (⟨[1], [⟨1, 1⟩],
        [⟨1, ⟨10, "A", "B"⟩, some 1, some 1⟩, ⟨2, ⟨11, "C", "D"⟩, some 1, some 1⟩],
        [⟨1, 1, 1, "d"⟩], [⟨2, 2, 1, false⟩], [], 2, 3, 1⟩, SaveResp.error) :=
  ⟨(c3_update_attendance_contract ⟨[1], [⟨1, 1⟩],
        [⟨1, ⟨10, "A", "B"⟩, some 1, some 1⟩, ⟨2, ⟨11, "C", "D"⟩, some 1, some 1⟩],
        [⟨1, 1, 1, "d"⟩], [⟨1, 1, 1, false⟩, ⟨2, 2, 1, false⟩], [], 2, 3, 1⟩ 1
        [(10, true), (11, false)] ⟨1, 1, 1, "d"⟩ (by decide)).1
      (by decide) (by decide) (by decide) (10, true) (by decide),
   (c3_update_attendance_contract ⟨[1], [⟨1, 1⟩],
        [⟨1, ⟨10, "A", "B"⟩, some 1, some 1⟩, ⟨2, ⟨11, "C", "D"⟩, some 1, some 1⟩],
        [⟨1, 1, 1, "d"⟩], [⟨2, 2, 1, false⟩], [], 2, 3, 1⟩ 1 [(10, true)]
        ⟨1, 1, 1, "d"⟩ (by decide)).2.1 10 true ⟨1, ⟨10, "A", "B"⟩, some 1, some 1⟩
      (by decide) (by decide)⟩

/-! ### C1: the attendance save flow is first-write-wins -/

/-- C1: the save-attendance flow.  (i) Submitting the same batch twice gives
exactly the state and response of the first submission, so every status stays
as set by the first write.  (ii) For a pair whose report already exists the
submitted status is silently ignored: the state is completely unchanged.
(iii) For a pair whose report does not exist yet, the created report carries
the submitted status, both when the event already exists and when this very
call creates it. -/
theorem c1_save_attendance_first_write_wins (db : DB) (sess subj : Nat) (date : String)
    (pairs : List (Nat × Bool)) :
    (save_attendance (save_attendance db sess subj date pairs).1 sess subj date pairs
      = save_attendance db sess subj date pairs) ∧
    (∀ sid st stu a r, studentById db sid = some stu →
      attendanceFor db sess subj date = some a →
      reportFor db stu.id a.id = some r →
      (save_attendance db sess subj date [(sid, st)]).1 = db) ∧
    (∀ sid st stu sub, WF db = true → sess ∈ db.sessions →
      subjectById db subj = some sub → studentById db sid = some stu →
      ((∀ a, attendanceFor db sess subj date = some a →
        reportsFor db stu.id a.id = [] →
        ∃ r, reportFor (save_attendance db sess subj date [(sid, st)]).1 stu.id a.id
            = some r ∧ r.status = st) ∧
       (attendancesFor db sess subj date = [] →
        ∃ a r, attendanceFor (save_attendance db sess subj date [(sid, st)]).1 sess subj date
            = some a ∧
          reportFor (save_attendance db sess subj date [(sid, st)]).1 stu.id a.id = some r ∧
          r.status = st))) := by
  refine ⟨save_attendance_idem db sess subj date pairs, ?_, ?_⟩
  · intro sid st stu a r hstu hatt hrep
    by_cases hs : sess ∈ db.sessions
    · cases hsub : subjectById db subj with
      | none => rw [save_attendance_eq_noSubject hs hsub]
      | some sub =>
        have hsubid : sub.id = subj := subjectById_id hsub
        have hsing : attendancesFor db sess sub.id date = [a] := by
          rw [hsubid]; exact getUnique_eq_some.mp hatt
        rw [save_attendance_eq_run hs hsub (getOrCreateAttendance_of_singleton hsing)]
        have hrsing : reportsFor db stu.id a.id = [r] := getUnique_eq_some.mp hrep
        rw [processStudents_cons_existing hstu (getOrCreateReport_of_singleton hrsing)]
        rfl
    · rw [save_attendance_eq_noSession hs]
  · intro sid st stu sub hwf hs hsub hstu
    have hsubid : sub.id = subj := subjectById_id hsub
    constructor
    · intro a hatt hempty
      have hsing : attendancesFor db sess sub.id date = [a] := by
        rw [hsubid]; exact getUnique_eq_some.mp hatt
      rw [save_attendance_eq_run hs hsub (getOrCreateAttendance_of_singleton hsing)]
      rw [processStudents_cons_created hstu (getOrCreateReport_of_empty hempty)]
      refine ⟨⟨db.nextReportId, stu.id, a.id, st⟩, ?_, rfl⟩
      show reportFor (setReportStatus
          { db with reports := db.reports ++ [⟨db.nextReportId, stu.id, a.id, false⟩],
                    nextReportId := db.nextReportId + 1 }
          (⟨db.nextReportId, stu.id, a.id, false⟩ : AttendanceReport).id st) stu.id a.id
          = some ⟨db.nextReportId, stu.id, a.id, st⟩
      rw [reportFor, reportsFor_setReportStatus]
      have happ : reportsFor
          { db with reports := db.reports ++ [⟨db.nextReportId, stu.id, a.id, false⟩],
                    nextReportId := db.nextReportId + 1 } stu.id a.id
          = [⟨db.nextReportId, stu.id, a.id, false⟩] := by
        simp only [reportsFor, List.filter_append] at hempty ⊢
        rw [hempty]
        simp
      rw [happ]
      simp [getUnique]
    · intro hemp
      have hemp' : attendancesFor db sess sub.id date = [] := by
        rw [hsubid]; exact hemp
      rw [save_attendance_eq_run hs hsub (getOrCreateAttendance_of_empty hemp')]
      have hstu1 : studentById
          { db with attendances := db.attendances ++ [⟨db.nextAttendanceId, sess, sub.id, date⟩],
                    nextAttendanceId := db.nextAttendanceId + 1 } sid = some stu := hstu
      simp only [WF, Bool.and_eq_true] at hwf
      obtain ⟨⟨⟨⟨⟨⟨⟨⟨hs1, hs2⟩, ha1⟩, ha2⟩, hr1⟩, hr2⟩, hr3⟩, hq1⟩, hq2⟩ := hwf
      have hfresh : reportsFor
          { db with attendances := db.attendances ++ [⟨db.nextAttendanceId, sess, sub.id, date⟩],
                    nextAttendanceId := db.nextAttendanceId + 1 } stu.id
          (⟨db.nextAttendanceId, sess, sub.id, date⟩ : Attendance).id = [] := by
        show reportsFor db stu.id db.nextAttendanceId = []
        simp only [List.all_eq_true, List.mem_map, decide_eq_true_eq] at hr3
        apply List.filter_eq_nil_iff.mpr
        intro r hr hpred
        simp only [Bool.and_eq_true, beq_iff_eq] at hpred
        have hlt : r.attendanceId < db.nextAttendanceId := hr3 r.attendanceId ⟨r, hr, rfl⟩
        omega
      rw [processStudents_cons_created hstu1 (getOrCreateReport_of_empty hfresh)]
      refine ⟨⟨db.nextAttendanceId, sess, sub.id, date⟩,
        ⟨db.nextReportId, stu.id, db.nextAttendanceId, st⟩, ?_, ?_, rfl⟩
      · show attendanceFor (setReportStatus
            { db with
              attendances := db.attendances ++ [⟨db.nextAttendanceId, sess, sub.id, date⟩],
              nextAttendanceId := db.nextAttendanceId + 1,
              reports := db.reports ++ [⟨db.nextReportId, stu.id, db.nextAttendanceId, false⟩],
              nextReportId := db.nextReportId + 1 }
            db.nextReportId st) sess subj date
            = some ⟨db.nextAttendanceId, sess, sub.id, date⟩
        rw [attendanceFor]
        have hattl : attendancesFor (setReportStatus
            { db with
              attendances := db.attendances ++ [⟨db.nextAttendanceId, sess, sub.id, date⟩],
              nextAttendanceId := db.nextAttendanceId + 1,
              reports := db.reports ++ [⟨db.nextReportId, stu.id, db.nextAttendanceId, false⟩],
              nextReportId := db.nextReportId + 1 }
            db.nextReportId st) sess subj date
            = [⟨db.nextAttendanceId, sess, sub.id, date⟩] := by
          rw [attendancesFor_setReportStatus]
          simp only [attendancesFor, List.filter_append] at hemp ⊢
          rw [hemp]
          simp [hsubid]
        rw [hattl]
        rfl
      · show reportFor (setReportStatus
            { db with
              attendances := db.attendances ++ [⟨db.nextAttendanceId, sess, sub.id, date⟩],
              nextAttendanceId := db.nextAttendanceId + 1,
              reports := db.reports ++ [⟨db.nextReportId, stu.id, db.nextAttendanceId, false⟩],
              nextReportId := db.nextReportId + 1 }
            db.nextReportId st) stu.id db.nextAttendanceId
            = some ⟨db.nextReportId, stu.id, db.nextAttendanceId, st⟩
        rw [reportFor, reportsFor_setReportStatus]
        have happ : reportsFor
            { db with
              attendances := db.attendances ++ [⟨db.nextAttendanceId, sess, sub.id, date⟩],
              nextAttendanceId := db.nextAttendanceId + 1,
              reports := db.reports ++ [⟨db.nextReportId, stu.id, db.nextAttendanceId, false⟩],
              nextReportId := db.nextReportId + 1 } stu.id db.nextAttendanceId
            = [⟨db.nextReportId, stu.id, db.nextAttendanceId, false⟩] := by
          have hfresh2 : reportsFor db stu.id db.nextAttendanceId = [] := hfresh
          simp only [reportsFor, List.filter_append] at hfresh2 ⊢
          rw [hfresh2]
          simp
        rw [happ]
        simp [getUnique]

/-- Witness for C1 at concrete inputs: submitting twice equals submitting
once; a resubmission against an existing report changes nothing; and a first
submission creates the report with the submitted status, both with and
without a pre-existing event. -/
theorem c1_save_attendance_first_write_wins_witness :
    (save_attendance (save_attendance ⟨[1], [⟨1, 1⟩], [⟨1, ⟨10, "A", "B"⟩, some 1, some 1⟩],
        [], [], [], 1, 1, 1⟩ 1 1 "d" [(1, true)]).1 1 1 "d" [(1, true)]
      = save_attendance ⟨[1], [⟨1, 1⟩], [⟨1, ⟨10, "A", "B"⟩, some 1, some 1⟩],
        [], [], [], 1, 1, 1⟩ 1 1 "d" [(1, true)]) ∧
    ((save_attendance ⟨[1], [⟨1, 1⟩], [⟨1, ⟨10, "A", "B"⟩, some 1, some 1⟩],
        [⟨1, 1, 1, "d"⟩], [⟨1, 1, 1, true⟩], [], 2, 2, 1⟩ 1 1 "d" [(1, false)]).1
      = ⟨[1], [⟨1, 1⟩], [⟨1, ⟨10, "A", "B"⟩, some 1, some 1⟩],
        [⟨1, 1, 1, "d"⟩], [⟨1, 1, 1, true⟩], [], 2, 2, 1⟩) ∧
    (∃ r, reportFor (save_attendance ⟨[1], [⟨1, 1⟩], [⟨1, ⟨10, "A", "B"⟩, some 1, some 1⟩],
        [⟨1, 1, 1, "d"⟩], [], [], 2, 1, 1⟩ 1 1 "d" [(1, true)]).1 1 1 = some r ∧
      r.status = true) ∧
    (∃ a r, attendanceFor (save_attendance ⟨[1], [⟨1, 1⟩], [⟨1, ⟨10, "A", "B"⟩, some 1, some 1⟩],
        [], [], [], 1, 1, 1⟩ 1 1 "d" [(1, true)]).1 1 1 "d" = some a ∧
      reportFor (save_attendance ⟨[1], [⟨1, 1⟩], [⟨1, ⟨10, "A", "B"⟩, some 1, some 1⟩],
        [], [], [], 1, 1, 1⟩ 1 1 "d" [(1, true)]).1 1 a.id = some r ∧ r.status = true) :=
  ⟨(c1_save_attendance_first_write_wins ⟨[1], [⟨1, 1⟩], [⟨1, ⟨10, "A", "B"⟩, some 1, some 1⟩],
        [], [], [], 1, 1, 1⟩ 1 1 "d" [(1, true)]).1,
   (c1_save_attendance_first_write_wins ⟨[1], [⟨1, 1⟩], [⟨1, ⟨10, "A", "B"⟩, some 1, some 1⟩],
        [⟨1, 1, 1, "d"⟩], [⟨1, 1, 1, true⟩], [], 2, 2, 1⟩ 1 1 "d" []).2.1
     1 false ⟨1, ⟨10, "A", "B"⟩, some 1, some 1⟩ ⟨1, 1, 1, "d"⟩ ⟨1, 1, 1, true⟩
     (by decide) (by decide) (by decide),
   ((c1_save_attendance_first_write_wins ⟨[1], [⟨1, 1⟩], [⟨1, ⟨10, "A", "B"⟩, some 1, some 1⟩],
        [⟨1, 1, 1, "d"⟩], [], [], 2, 1, 1⟩ 1 1 "d" []).2.2
     1 true ⟨1, ⟨10, "A", "B"⟩, some 1, some 1⟩ ⟨1, 1⟩
     (by decide) (by decide) (by decide) (by decide)).1 ⟨1, 1, 1, "d"⟩
     (by decide) (by decide),
   ((c1_save_attendance_first_write_wins ⟨[1], [⟨1, 1⟩], [⟨1, ⟨10, "A", "B"⟩, some 1, some 1⟩],
        [], [], [], 1, 1, 1⟩ 1 1 "d" []).2.2
     1 true ⟨1, ⟨10, "A", "B"⟩, some 1, some 1⟩ ⟨1, 1⟩
     (by decide) (by decide) (by decide) (by decide)).2 (by decide)⟩

end SchoolApp
